import Mathlib

/-!
Shallow embedding of the feedback relay server of the hata-masazhu
repository and of its browser-side companion: text sanitizer, rating
validator, review submission handlers, master-click dedup cache, Telegram
delivery retry, alert throttle, and the stored-review hydration on the
client.  JS strings are modelled as lists of UTF-16 code units, JS numbers
as rationals extended with NaN and the two infinities, timestamps as
integers (milliseconds since the epoch).
-/

namespace HataMasazhu

/-- A JS number: NaN, an infinity, or a finite value (every IEEE double is
a rational number). -/
inductive JsNum where
  | nan
  | inf (pos : Bool)
  | num (q : ℚ)
deriving DecidableEq, Repr

/-- Number.isInteger: true only for finite integral numbers, false for
every other value. -/
def JsNum.isInteger : JsNum → Bool
  | .num q => q.den == 1
  | _ => false

/-- The JS comparison n >= c against a numeric constant; false on NaN. -/
def JsNum.geQ : JsNum → ℚ → Bool
  | .nan, _ => false
  | .inf pos, _ => pos
  | .num q, c => decide (c ≤ q)

/-- The JS comparison n <= c against a numeric constant; false on NaN. -/
def JsNum.leQ : JsNum → ℚ → Bool
  | .nan, _ => false
  | .inf pos, _ => !pos
  | .num q, c => decide (q ≤ c)

/-- The JS comparison n < c against a numeric constant; false on NaN. -/
def JsNum.ltQ : JsNum → ℚ → Bool
  | .nan, _ => false
  | .inf pos, _ => !pos
  | .num q, c => decide (q < c)

/-- A JS string, as its sequence of UTF-16 code units. -/
abbrev JStr := List Nat

/-- A well-typed JSON-ish value as it can appear in a request body field. -/
inductive JSValue where
  | vnum (n : JsNum)
  | vstr (s : JStr)
  | vbool (b : Bool)
  | vnull
  | vundef
deriving DecidableEq, Repr

/-- Source: `const isValidRating = (rating) => Number.isInteger(rating) &&
rating >= 1 && rating <= 5;` (identical in all server variants).  For a
value that is not a number, `Number.isInteger` yields false and the
conjunction short-circuits, so the match on the number case is faithful. -/
def isValidRating (rating : JSValue) : Bool :=
  match rating with
  | .vnum n => n.isInteger && n.geQ 1 && n.leQ 5
  | _ => false

/-- Membership in the fixed exclusion set of CONTROL_CHAR_REGEX:
`[\u0000-\u0008\u000B\u000C\u000E-\u001F\u007F-\u009F]`. -/
def isControlCodeUnit (u : Nat) : Bool :=
  (u ≤ 0x0008) || (u == 0x000B) || (u == 0x000C) ||
  (0x000E ≤ u && u ≤ 0x001F) || (0x007F ≤ u && u ≤ 0x009F)

/-- The WhiteSpace and LineTerminator code units removed by
String.prototype.trim. -/
def isJsWhitespaceCodeUnit (u : Nat) : Bool :=
  u == 0x0009 || u == 0x000A || u == 0x000B || u == 0x000C || u == 0x000D ||
  u == 0x0020 || u == 0x00A0 || u == 0x1680 ||
  (0x2000 ≤ u && u ≤ 0x200A) || u == 0x2028 || u == 0x2029 ||
  u == 0x202F || u == 0x205F || u == 0x3000 || u == 0xFEFF

/-- Source: `const toCleanString = (value) => (typeof value === 'string' ?
value : '');` -/
def toCleanString : JSValue → JStr
  | .vstr s => s
  | _ => []

/-- Source: `const stripControlChars = (value) =>
value.replace(CONTROL_CHAR_REGEX, '');` -/
def stripControlChars (s : JStr) : JStr :=
  s.filter (fun u => !isControlCodeUnit u)

/-- String.prototype.trim: drop whitespace code units from both ends. -/
def jsTrim (s : JStr) : JStr :=
  ((s.dropWhile isJsWhitespaceCodeUnit).reverse.dropWhile
    isJsWhitespaceCodeUnit).reverse

/-- Source: `const sanitizeText = (raw, maxLength) => { const cleaned =
stripControlChars(toCleanString(raw)); return cleaned.trim().slice(0,
maxLength); };` with `slice(0, n)` on a nonnegative bound being the prefix
of at most n code units. -/
def sanitizeText (raw : JSValue) (maxLength : Nat) : JStr :=
  (jsTrim (stripControlChars (toCleanString raw))).take maxLength

/-- Source constant MAX_NAME_LENGTH = 60. -/
def MAX_NAME_LENGTH : Nat := 60

/-- Source constant MAX_REASON_LENGTH = 500. -/
def MAX_REASON_LENGTH : Nat := 500

/-- JS truthiness of an optional string config value or field (falsy when
null/absent or the empty string). -/
def jsTruthyStr : Option String → Bool
  | none => false
  | some s => !s.isEmpty

/-- HTTP response of the review endpoints, as the claims observe it. -/
inductive ReviewResponse where
  | badRequest (msg : String)
  | ok (redirectUrl : Option String)
  | serverError
deriving DecidableEq, Repr

/-- True exactly on the 400-class validation responses. -/
def ReviewResponse.is400 : ReviewResponse → Bool
  | .badRequest _ => true
  | _ => false

/-- The 400 message for an invalid rating. -/
def msgRating : String := "Rating must be an integer between 1 and 5."

/-- The 400 message for a missing name (sanitizeText-based variant only). -/
def msgName : String := "Name is required."

/-- The 400 message for a missing reason on a low rating. -/
def msgReason : String := "Please provide a short note about your experience."

/-- Calling `.trim()` on a value: returns the trimmed string for strings
and raises a TypeError for every non-string value. -/
def jsTrimMethod : JSValue → Except Unit JStr
  | .vstr s => .ok (jsTrim s)
  | _ => .error ()

/-- The POST /api/review handler of the sanitizeText-based server variant
(src/unnamed/part_001, lines 266-306): validate the rating, require a
non-empty sanitized name, require a non-empty sanitized reason when the
rating is below 5, deliver the notification (its success is the
`deliverySucceeds` input; a delivery exception is caught and answered with
the generic 500), and include the configured review URL in the response
exactly when the rating is 5 and the URL is configured.  The handler
receives `numericRating = Number(rating)`; `Number` never throws on a JSON
value. -/
def reviewHandler_001 (name reason : JSValue) (numericRating : JsNum)
    (googleReviewUrl : Option String) (deliverySucceeds : Bool) :
    ReviewResponse :=
  if !isValidRating (.vnum numericRating) then .badRequest msgRating
  else
    let sanitizedName := sanitizeText name MAX_NAME_LENGTH
    if sanitizedName.isEmpty then .badRequest msgName
    else
      let sanitizedReason := sanitizeText reason MAX_REASON_LENGTH
      if numericRating.ltQ 5 && sanitizedReason.isEmpty then
        .badRequest msgReason
      else if !deliverySucceeds then .serverError
      else if numericRating = JsNum.num 5 ∧
          jsTruthyStr googleReviewUrl = true then .ok googleReviewUrl
      else .ok none

/-- The POST /api/review handler of the earlier server variants
(src/unnamed/part_000 lines 162-198 and src/unnamed/part_002 lines 47-79):
destructuring defaults turn an absent name/reason into the empty string,
the rating is validated, then `reason.trim()` runs (raising a TypeError on
any non-string reason, caught by the try/catch and answered with the
generic 500), the reason is required for ratings below 5, `name.trim()`
runs while building the notification (same TypeError behaviour), and the
delivery outcome maps to 500 on failure. -/
def reviewHandler_000 (name reason : JSValue) (numericRating : JsNum)
    (googleReviewUrl : Option String) (deliverySucceeds : Bool) :
    ReviewResponse :=
  let n := if name = JSValue.vundef then JSValue.vstr [] else name
  let r := if reason = JSValue.vundef then JSValue.vstr [] else reason
  if !isValidRating (.vnum numericRating) then .badRequest msgRating
  else
    match jsTrimMethod r with
    | .error _ => .serverError
    | .ok trimmedReason =>
      if numericRating.ltQ 5 && trimmedReason.isEmpty then
        .badRequest msgReason
      else
        match jsTrimMethod n with
        | .error _ => .serverError
        | .ok _ =>
          if !deliverySucceeds then .serverError
          else if numericRating = JsNum.num 5 ∧
              jsTruthyStr googleReviewUrl = true then .ok googleReviewUrl
          else .ok none

/-- The master-click dedup cache: the insertion-ordered key/value entries
of the JS Map `masterClickCache`. -/
abbrev ClickCache := List (String × Int)

/-- Map.prototype.get: the value of the first entry with the given key. -/
def cacheGet : ClickCache → String → Option Int
  | [], _ => none
  | e :: es, k => if e.1 = k then some e.2 else cacheGet es k

/-- Map.prototype.set: update the existing entry in place, else append. -/
def cacheSet : ClickCache → String → Int → ClickCache
  | [], k, v => [(k, v)]
  | e :: es, k, v => if e.1 = k then (k, v) :: es else e :: cacheSet es k v

/-- Source: ``const key = `${ip}::${master || 'unknown'}`;`` for a master
field that is an absent value or a string. -/
def deriveMasterKey (ip : String) (master : Option String) : String :=
  ip ++ "::" ++ (match master with
    | some s => if s = "" then "unknown" else s
    | none => "unknown")

/-- Source: `if (prev && now - prev < MASTER_CLICK_DEDUP_MS)`; a stored
timestamp of 0 is falsy. -/
def dedupSuppressed (dedupMs : Int) (prev : Option Int) (now : Int) : Bool :=
  match prev with
  | some p => decide (p ≠ 0 ∧ now - p < dedupMs)
  | none => false

/-- Observable outcome of one POST /api/review/master-click request:
response flags, the cache that remains, and the number of outbound
delivery attempts made. -/
structure ClickResult where
  success : Bool
  deduped : Bool
  cache : ClickCache
  deliveries : Nat
deriving DecidableEq, Repr

/-- The POST /api/review/master-click handler (src/unnamed/part_001 lines
334-366, identically src/unnamed/part_000 lines 226-258): derive the key,
answer `{success, deduped}` without touching the cache when the key was
recorded within the window, otherwise record the timestamp, sweep stale
entries once the map holds more than 1000 entries, and deliver one
notification. -/
def masterClick (dedupMs : Int) (cache : ClickCache) (ip : String)
    (master : Option String) (now : Int) : ClickResult :=
  let key := deriveMasterKey ip master
  if dedupSuppressed dedupMs (cacheGet cache key) now then
    ⟨true, true, cache, 0⟩
  else
    let c1 := cacheSet cache key now
    let c2 := if 1000 < c1.length then
        c1.filter (fun e => !decide (dedupMs < now - e.2))
      else c1
    ⟨true, false, c2, 1⟩

/-- Run a sequence of master-click requests for one (ip, master) pair at
the given times, threading the cache and counting delivery attempts. -/
def runMasterClicks (dedupMs : Int) (ip : String) (master : Option String) :
    List Int → ClickCache → ClickCache × Nat
  | [], c => (c, 0)
  | t :: ts, c =>
    let r := masterClick dedupMs c ip master t
    let rest := runMasterClicks dedupMs ip master ts r.cache
    (rest.1, r.deliveries + rest.2)

/-- Source default MASTER_CLICK_DEDUP_MS = 30000. -/
def MASTER_CLICK_DEDUP_MS : Int := 30000

/-- Observable outcome of one sendServerAlert call: the new value of the
module-level `lastAlertAt`, whether a delivery was attempted, and whether
the alert actually reached the channel. -/
structure AlertOutcome where
  lastAlertAt : Int
  attempted : Bool
  delivered : Bool
deriving DecidableEq, Repr

/-- Source (src/unnamed/part_001 lines 214-225, identically
src/unnamed/part_000 lines 110-121): return untouched when alerting is
disabled or when `now - lastAlertAt < ALERT_MIN_INTERVAL_MS`; otherwise
set `lastAlertAt = now` first and then attempt one delivery inside a
try/catch whose catch only logs, so a failed delivery (the
`deliveryFails` input) never restores the previous timestamp. -/
def sendServerAlert (alertsEnabled : Bool) (minIntervalMs lastAlertAt
    now : Int) (deliveryFails : Bool) : AlertOutcome :=
  if !alertsEnabled then ⟨lastAlertAt, false, false⟩
  else if now - lastAlertAt < minIntervalMs then ⟨lastAlertAt, false, false⟩
  else ⟨now, true, !deliveryFails⟩

/-- Run a sequence of failures through sendServerAlert; each event is a
(time, deliveryFails) pair.  Returns the final `lastAlertAt` and the times
of the outbound alert attempts, in order. -/
def runAlerts (alertsEnabled : Bool) (minIntervalMs : Int) :
    Int → List (Int × Bool) → Int × List Int
  | st, [] => (st, [])
  | st, (t, f) :: es =>
    let o := sendServerAlert alertsEnabled minIntervalMs st t f
    let rest := runAlerts alertsEnabled minIntervalMs o.lastAlertAt es
    (rest.1, if o.attempted then t :: rest.2 else rest.2)

/-- Source default ALERT_MIN_INTERVAL_MS = 5 * 60 * 1000. -/
def ALERT_MIN_INTERVAL_MS : Int := 300000

/-- An error raised by a Telegram delivery attempt: either some non-object
value, or an axios-style error object carrying an optional code and, when
the remote produced an HTTP response, its status. -/
inductive TgError where
  | nonObject
  | err (code : Option String) (httpStatus : Option Nat)
deriving DecidableEq, Repr

/-- Source (src/unnamed/part_001 lines 46-61): false for non-objects, true
on code ECONNABORTED (client-side timeout), true when no HTTP response
arrived, false otherwise. -/
def shouldRetryTelegram : TgError → Bool
  | .nonObject => false
  | .err code httpStatus =>
    if code = some "ECONNABORTED" then true
    else httpStatus.isNone

/-- Trace of one sendTelegramWithRetry call: the error it re-raised (none
on success), how many POST attempts it made in total, and the list of
delays it waited between attempts. -/
structure RetryTrace where
  raised : Option TgError
  attemptsUsed : Nat
  waits : List Int
deriving DecidableEq, Repr

/-- The retry loop of sendTelegramWithRetry (src/unnamed/part_001 lines
63-81).  `oracle i` is the outcome of the i-th POST (none = success);
`attempt` counts the failures so far as in the source.  On a failure the
counter is incremented and the loop continues only while `attempt <=
TELEGRAM_RETRY_ATTEMPTS && shouldRetryTelegram(error)`, sleeping
TELEGRAM_RETRY_DELAY_MS first when that delay is positive. -/
def sendTelegramWithRetryAux (oracle : Nat → Option TgError)
    (retryAttempts : Nat) (retryDelayMs : Int) (attempt : Nat)
    (waits : List Int) : RetryTrace :=
  match oracle attempt with
  | none => ⟨none, attempt + 1, waits⟩
  | some e =>
    if h : attempt + 1 ≤ retryAttempts ∧ shouldRetryTelegram e = true then
      sendTelegramWithRetryAux oracle retryAttempts retryDelayMs
        (attempt + 1)
        (waits ++ (if 0 < retryDelayMs then [retryDelayMs] else []))
    else ⟨some e, attempt + 1, waits⟩
termination_by retryAttempts + 1 - attempt
decreasing_by omega

/-- sendTelegramWithRetry: start the loop with zero recorded failures. -/
def sendTelegramWithRetry (oracle : Nat → Option TgError)
    (retryAttempts : Nat) (retryDelayMs : Int) : RetryTrace :=
  sendTelegramWithRetryAux oracle retryAttempts retryDelayMs 0 []

/-- Source default TELEGRAM_RETRY_ATTEMPTS = 1. -/
def TELEGRAM_RETRY_ATTEMPTS : Nat := 1

/-- Source default TELEGRAM_RETRY_DELAY_MS = 500. -/
def TELEGRAM_RETRY_DELAY_MS : Int := 500

/-- A client-side timeout error as axios raises it. -/
def timeoutErr : TgError := .err (some "ECONNABORTED") none

/-- A delivery oracle on which every attempt times out. -/
def timeoutOracle (_i : Nat) : Option TgError := some timeoutErr

/-- An error where the remote answered with HTTP status 400. -/
def httpRejectErr : TgError := .err none (some 400)

/-- A delivery oracle on which every attempt is rejected with HTTP 400. -/
def httpRejectOracle (_i : Nat) : Option TgError := some httpRejectErr

/-- The client-side stored review record, after JSON.parse succeeded on a
truthy object.  `submittedAt` is `new Date(parsed.submittedAt).getTime()`
when the field is present and parses to a date; none covers an absent or
falsy field and a NaN date, which the source treats alike. -/
structure StoredRecord where
  name : JStr
  rating : Option Int
  reason : JStr
  submittedAt : Option Int
  redirectUrl : Option String
  googleClicked : Bool
deriving DecidableEq, Repr

/-- The raw content under the storage key, when present. -/
inductive StoredRaw where
  | malformed
  | record (r : StoredRecord)
deriving DecidableEq, Repr

/-- localStorage under the fixed key: absent or some raw content. -/
abbrev ClientStorage := Option StoredRaw

/-- getStoredReview (src/public/app.js lines 36-66): absent storage yields
null; unparsable content is removed and yields null; a record whose
submittedAt is absent, falsy (0) or NaN is removed and yields null; a
record older than the TTL is removed and yields null; otherwise the record
is returned and storage is untouched.  Returns (parsed record or none, the
storage left behind). -/
def getStoredReview (storage : ClientStorage) (now ttlMs : Int) :
    Option StoredRecord × ClientStorage :=
  match storage with
  | none => (none, none)
  | some .malformed => (none, none)
  | some (.record r) =>
    match r.submittedAt with
    | none => (none, none)
    | some t =>
      if t = 0 then (none, none)
      else if ttlMs < now - t then (none, none)
      else (some r, storage)

/-- Outcome of hydrateFromStorage: the storage left behind and whether the
form was disabled. -/
structure HydrateResult where
  storage : ClientStorage
  formDisabled : Bool
deriving DecidableEq, Repr

/-- hydrateFromStorage (src/public/app.js lines 91-122): do nothing when
no stored review survives the read; remove the record and return (leaving
the form enabled) when `review.rating === 5 && !review.redirectUrl`;
otherwise restore the fields and disable the form. -/
def hydrateFromStorage (storage : ClientStorage) (now ttlMs : Int) :
    HydrateResult :=
  match getStoredReview storage now ttlMs with
  | (none, storageLeft) => ⟨storageLeft, false⟩
  | (some r, storageLeft) =>
    if r.rating = some 5 ∧ jsTruthyStr r.redirectUrl = false then
      ⟨none, false⟩
    else ⟨storageLeft, true⟩

/-- Source constant REVIEW_TTL_MS = 72 * 60 * 60 * 1000. -/
def REVIEW_TTL_MS : Int := 259200000

/-- Claim C5: isValidRating returns true exactly on the finite integral
numbers between 1 and 5; every non-integer, out-of-range or non-numeric
value is rejected. -/
theorem isValidRating_spec (v : JSValue) :
    isValidRating v = true ↔
      ∃ n : ℤ, v = JSValue.vnum (JsNum.num (n : ℚ)) ∧ 1 ≤ n ∧ n ≤ 5 := by
  cases v with
  | vnum m =>
    cases m with
    | nan => simp [isValidRating, JsNum.isInteger]
    | inf pos => simp [isValidRating, JsNum.isInteger]
    | num q =>
      simp only [isValidRating, JsNum.isInteger, JsNum.geQ, JsNum.leQ,
        Bool.and_eq_true, beq_iff_eq, decide_eq_true_eq,
        JSValue.vnum.injEq, JsNum.num.injEq]
      constructor
      · rintro ⟨⟨hden, h1⟩, h5⟩
        have hq : ((q.num : ℚ)) = q := (Rat.den_eq_one_iff q).mp hden
        refine ⟨q.num, hq.symm, ?_, ?_⟩
        · rw [← hq] at h1; exact_mod_cast h1
        · rw [← hq] at h5; exact_mod_cast h5
      · rintro ⟨n, rfl, h1, h5⟩
        refine ⟨⟨Rat.den_intCast n, ?_⟩, ?_⟩
        · exact_mod_cast h1
        · exact_mod_cast h5
  | vstr s => simp [isValidRating]
  | vbool b => simp [isValidRating]
  | vnull => simp [isValidRating]
  | vundef => simp [isValidRating]

/-- Witness for C5: the concrete rating 3 is accepted, and the shape of
the accepting input is the one the theorem describes. -/
theorem isValidRating_spec_witness :
    isValidRating (JSValue.vnum (JsNum.num ((3 : ℤ) : ℚ))) = true ↔
      ∃ n : ℤ, JSValue.vnum (JsNum.num ((3 : ℤ) : ℚ)) =
        JSValue.vnum (JsNum.num (n : ℚ)) ∧ 1 ≤ n ∧ n ≤ 5 :=
  isValidRating_spec (JSValue.vnum (JsNum.num ((3 : ℤ) : ℚ)))

/-- Claim C9: an enabled, un-throttled alert advances lastAlertAt to the
current time and attempts one delivery; the timestamp is not restored when
the delivery fails, and every further failure within the minimum interval
of that time makes no alert attempt at all. -/
theorem alert_state_consumed (w st now : Int) (fails : Bool)
    (hok : w ≤ now - st) :
    (sendServerAlert true w st now fails).lastAlertAt = now ∧
    (sendServerAlert true w st now fails).attempted = true ∧
    (sendServerAlert true w st now fails).delivered = !fails ∧
    (∀ t fl, t - now < w →
      sendServerAlert true w now t fl = ⟨now, false, false⟩) := by
  have hnot : ¬ now - st < w := not_lt.mpr hok
  refine ⟨?_, ?_, ?_, ?_⟩
  · simp [sendServerAlert, hnot]
  · simp [sendServerAlert, hnot]
  · simp [sendServerAlert, hnot]
  · intro t fl ht
    simp [sendServerAlert, ht]

/-- Witness for C9: a failed alert at time 300000 consumes the window and
the next failure at 400000 is silently dropped. -/
theorem alert_state_consumed_witness :
    (sendServerAlert true 300000 0 300000 true).lastAlertAt = 300000 ∧
    sendServerAlert true 300000 300000 400000 false =
      ⟨300000, false, false⟩ := by
  have h := alert_state_consumed 300000 0 300000 true (by decide)
  exact ⟨h.1, h.2.2.2 400000 false (by decide)⟩

/-- Claim C6 counterexample: sanitizeText is not idempotent as claimed;
on the string "a b" with bound 2 the truncation exposes a trailing space
that a second application trims away. -/
theorem sanitizeText_not_idempotent :
    sanitizeText (JSValue.vstr (sanitizeText (JSValue.vstr [97, 32, 98]) 2))
      2 ≠ sanitizeText (JSValue.vstr [97, 32, 98]) 2 := by decide

/-- Helper: dropWhile is idempotent. -/
theorem dropWhile_idem {α : Type} (p : α → Bool) (l : List α) :
    (l.dropWhile p).dropWhile p = l.dropWhile p := by
  induction l with
  | nil => rfl
  | cons a l ih =>
    by_cases h : p a
    · simp [List.dropWhile_cons, h, ih]
    · simp [List.dropWhile_cons, h]

/-- Helper: the head that survives dropWhile fails the predicate. -/
theorem head_dropWhile_false {α : Type} (p : α → Bool) (l : List α) (x : α)
    (hx : (l.dropWhile p).head? = some x) : p x = false := by
  induction l with
  | nil => simp at hx
  | cons a l ih =>
    rw [List.dropWhile_cons] at hx
    by_cases h : p a
    · rw [if_pos h] at hx; exact ih hx
    · rw [if_neg h] at hx
      simp only [List.head?_cons, Option.some.injEq] at hx
      rw [← hx]
      exact Bool.eq_false_iff.mpr h

/-- Helper: dropWhile leaves a list alone whose head fails the predicate. -/
theorem dropWhile_eq_self_of_head {α : Type} (p : α → Bool) (l : List α)
    (h : ∀ x, l.head? = some x → p x = false) : l.dropWhile p = l := by
  cases l with
  | nil => rfl
  | cons a l =>
    have ha := h a rfl
    simp [List.dropWhile_cons, ha]

/-- Helper: dropWhile keeps the last element of a list when it keeps
anything at all. -/
theorem getLast_dropWhile {α : Type} (p : α → Bool) (l : List α)
    (h : l.dropWhile p ≠ []) :
    (l.dropWhile p).getLast? = l.getLast? := by
  induction l with
  | nil => simp at h
  | cons a l ih =>
    by_cases hp : p a
    · rw [List.dropWhile_cons, if_pos hp] at h ⊢
      have hl : l ≠ [] := by
        intro he; rw [he] at h; simp at h
      rw [ih h]
      cases l with
      | nil => exact absurd rfl hl
      | cons b l2 => simp [List.getLast?_cons_cons]
    · rw [List.dropWhile_cons, if_neg hp]

/-- Helper: membership in the trimmed string implies membership in the
original. -/
theorem mem_jsTrim {u : Nat} {s : JStr} (h : u ∈ jsTrim s) : u ∈ s := by
  unfold jsTrim at h
  rw [List.mem_reverse] at h
  have h1 := (List.dropWhile_sublist
    (l := (s.dropWhile isJsWhitespaceCodeUnit).reverse)
    isJsWhitespaceCodeUnit).subset h
  rw [List.mem_reverse] at h1
  exact (List.dropWhile_sublist (l := s) isJsWhitespaceCodeUnit).subset h1

/-- Helper: jsTrim fixes a string that is already trimmed at both ends. -/
theorem jsTrim_eq_self (s : JStr)
    (h1 : s.dropWhile isJsWhitespaceCodeUnit = s)
    (h2 : s.reverse.dropWhile isJsWhitespaceCodeUnit = s.reverse) :
    jsTrim s = s := by
  unfold jsTrim
  rw [h1, h2, List.reverse_reverse]

/-- Helper: jsTrim is idempotent. -/
theorem jsTrim_idem (s : JStr) : jsTrim (jsTrim s) = jsTrim s := by
  have hdw : (jsTrim s).dropWhile isJsWhitespaceCodeUnit = jsTrim s := by
    apply dropWhile_eq_self_of_head
    intro x hx
    unfold jsTrim at hx
    rw [List.head?_reverse] at hx
    by_cases hnil : (s.dropWhile isJsWhitespaceCodeUnit).reverse.dropWhile
        isJsWhitespaceCodeUnit = []
    · rw [hnil] at hx; simp at hx
    · rw [getLast_dropWhile _ _ hnil, List.getLast?_reverse] at hx
      exact head_dropWhile_false _ _ _ hx
  have hrev : (jsTrim s).reverse.dropWhile isJsWhitespaceCodeUnit =
      (jsTrim s).reverse := by
    unfold jsTrim
    rw [List.reverse_reverse]
    exact dropWhile_idem _ _
  exact jsTrim_eq_self _ hdw hrev

/-- Claim C6 (amended): the sanitizer output never exceeds maxLength code
units, never contains a control character of the exclusion set, is empty
on non-string input, and a second application is the identity whenever the
first one did not truncate (truncation can expose trailing whitespace that
a second pass would trim, so idempotence holds only then). -/
theorem sanitizeText_props (raw : JSValue) (maxLength : Nat) :
    (sanitizeText raw maxLength).length ≤ maxLength ∧
    (∀ u ∈ sanitizeText raw maxLength, isControlCodeUnit u = false) ∧
    ((∀ s, raw ≠ JSValue.vstr s) → sanitizeText raw maxLength = []) ∧
    ((jsTrim (stripControlChars (toCleanString raw))).length ≤ maxLength →
      sanitizeText (JSValue.vstr (sanitizeText raw maxLength)) maxLength =
        sanitizeText raw maxLength) := by
  refine ⟨?_, ?_, ?_, ?_⟩
  · exact List.length_take_le _ _
  · intro u hu
    have h1 : u ∈ jsTrim (stripControlChars (toCleanString raw)) :=
      List.take_subset _ _ hu
    have h2 : u ∈ stripControlChars (toCleanString raw) := mem_jsTrim h1
    have h3 := List.mem_filter.mp h2
    simpa using h3.2
  · intro h
    cases raw with
    | vstr s => exact absurd rfl (h s)
    | vnum n => simp [sanitizeText, stripControlChars, jsTrim, toCleanString]
    | vbool b => simp [sanitizeText, stripControlChars, jsTrim, toCleanString]
    | vnull => simp [sanitizeText, stripControlChars, jsTrim, toCleanString]
    | vundef => simp [sanitizeText, stripControlChars, jsTrim, toCleanString]
  · intro h
    have htake : (jsTrim (stripControlChars (toCleanString raw))).take
        maxLength = jsTrim (stripControlChars (toCleanString raw)) :=
      List.take_of_length_le h
    have hsan : sanitizeText raw maxLength =
        jsTrim (stripControlChars (toCleanString raw)) := by
      unfold sanitizeText; rw [htake]
    have hstrip : stripControlChars (toCleanString (JSValue.vstr
        (jsTrim (stripControlChars (toCleanString raw))))) =
        jsTrim (stripControlChars (toCleanString raw)) := by
      show (jsTrim (stripControlChars (toCleanString raw))).filter _ = _
      rw [List.filter_eq_self]
      intro a ha
      have h2 : a ∈ stripControlChars (toCleanString raw) := mem_jsTrim ha
      exact (List.mem_filter.mp h2).2
    rw [hsan]
    unfold sanitizeText
    rw [hstrip, jsTrim_idem, htake]

/-- Witness for C6 at a concrete input: the bound holds and the second
application is the identity when nothing is truncated. -/
theorem sanitizeText_props_witness :
    (sanitizeText (JSValue.vstr [32, 97]) 5).length ≤ 5 ∧
    sanitizeText (JSValue.vstr (sanitizeText (JSValue.vstr [32, 97]) 5)) 5 =
      sanitizeText (JSValue.vstr [32, 97]) 5 :=
  ⟨(sanitizeText_props (JSValue.vstr [32, 97]) 5).1,
   (sanitizeText_props (JSValue.vstr [32, 97]) 5).2.2.2 (by decide)⟩

/-- Claim C8: on load, a stored record with rating 5 and no redirect URL
is removed at once and the form stays enabled; an expired record, an
unparsable record, and a record without a valid submission time are
likewise discarded on read. -/
theorem hydrate_invalid_discard (r : StoredRecord) (now ttl t : Int)
    (hsub : r.submittedAt = some t) (ht : t ≠ 0) (hfresh : now - t ≤ ttl)
    (h5 : r.rating = some 5) (hurl : jsTruthyStr r.redirectUrl = false) :
    hydrateFromStorage (some (.record r)) now ttl = ⟨none, false⟩ ∧
    (∀ r2 t2, r2.submittedAt = some t2 → ttl < now - t2 →
      hydrateFromStorage (some (.record r2)) now ttl = ⟨none, false⟩) ∧
    hydrateFromStorage (some .malformed) now ttl = ⟨none, false⟩ ∧
    (∀ r2, r2.submittedAt = none →
      hydrateFromStorage (some (.record r2)) now ttl = ⟨none, false⟩) := by
  refine ⟨?_, ?_, ?_, ?_⟩
  · have hexp : ¬ ttl < now - t := not_lt.mpr hfresh
    simp [hydrateFromStorage, getStoredReview, hsub, ht, hexp, h5, hurl]
  · intro r2 t2 hs2 hex
    by_cases hz : t2 = 0
    · simp [hydrateFromStorage, getStoredReview, hs2, hz]
    · simp [hydrateFromStorage, getStoredReview, hs2, hz, hex]
  · simp [hydrateFromStorage, getStoredReview]
  · intro r2 hs2
    simp [hydrateFromStorage, getStoredReview, hs2]

/-- Witness for C8: a fresh five-star record without a redirect URL is
deleted on load and the form is left enabled. -/
theorem hydrate_invalid_discard_witness :
    hydrateFromStorage
      (some (.record ⟨[], some 5, [], some 1000, none, false⟩)) 2000
      259200000 = ⟨none, false⟩ :=
  (hydrate_invalid_discard ⟨[], some 5, [], some 1000, none, false⟩
    2000 259200000 1000 rfl (by decide) (by decide) rfl rfl).1

/-- Claim C4: with a rating below 5 an empty sanitized reason always
yields a 400 validation response, and with rating 5 the reason field never
influences the response at all. -/
theorem review_reason_rule (name reason reason2 : JSValue) (n : JsNum)
    (url : Option String) (d : Bool) :
    (n.ltQ 5 = true →
      (sanitizeText reason MAX_REASON_LENGTH).isEmpty = true →
      (reviewHandler_001 name reason n url d).is400 = true) ∧
    reviewHandler_001 name reason (JsNum.num 5) url d =
      reviewHandler_001 name reason2 (JsNum.num 5) url d := by
  constructor
  · intro hlt hemp
    simp only [reviewHandler_001]
    split_ifs with h1 h2 h3 h4 h5
    · rfl
    · rfl
    · rfl
    all_goals exact absurd (by rw [hlt, hemp]; rfl) h3
  · have hlt5 : (JsNum.num 5).ltQ 5 = false := by
      simp [JsNum.ltQ]
    simp [reviewHandler_001, hlt5]

/-- Witness for C4: rating 2 with a blank reason is answered with a 400,
and two different reasons at rating 5 get the same response. -/
theorem review_reason_rule_witness :
    (reviewHandler_001 (JSValue.vstr [65]) (JSValue.vstr []) (JsNum.num 2)
      none true).is400 = true ∧
    reviewHandler_001 (JSValue.vstr [65]) (JSValue.vstr [98]) (JsNum.num 5)
        none true =
      reviewHandler_001 (JSValue.vstr [65]) (JSValue.vstr [99]) (JsNum.num 5)
        none true :=
  ⟨(review_reason_rule (JSValue.vstr [65]) (JSValue.vstr [])
      (JSValue.vstr []) (JsNum.num 2) none true).1 (by decide) (by decide),
   (review_reason_rule (JSValue.vstr [65]) (JSValue.vstr [98])
      (JSValue.vstr [99]) (JsNum.num 5) none true).2⟩

/-- Claim C7 counterexample: in the reason.trim() server variants a
well-typed numeric reason sends the validation path into a thrown
TypeError that the handler answers with the generic 500, not with a
structured 400. -/
theorem review_numeric_reason_500 :
    reviewHandler_000 (JSValue.vstr [73]) (JSValue.vnum (JsNum.num 42))
      (JsNum.num 3) none true = ReviewResponse.serverError := by decide

/-- Claim C7 (amended): in the sanitizeText-based submit-review handler
the validation path never raises: with a successful delivery no body
produces the generic 500, and every 400 carries one of the three specific
validation messages.  (The earlier reason.trim() variants do raise a
caught TypeError on non-string fields; see the counterexample.) -/
theorem review_validation_total (name reason : JSValue) (n : JsNum)
    (url : Option String) (d : Bool) :
    reviewHandler_001 name reason n url true ≠ ReviewResponse.serverError ∧
    (∀ m, reviewHandler_001 name reason n url d =
        ReviewResponse.badRequest m →
      m = msgRating ∨ m = msgName ∨ m = msgReason) := by
  constructor
  · simp only [reviewHandler_001, Bool.not_true]
    split_ifs <;> simp_all
  · intro m
    simp only [reviewHandler_001]
    split_ifs <;> intro hm <;>
      first
        | (injection hm with h2; subst h2; tauto)
        | exact hm.elim

/-- Witness for C7 at concrete inputs: with delivery succeeding the
handler never answers 500, and a concrete 400 carries a known message. -/
theorem review_validation_total_witness :
    reviewHandler_001 (JSValue.vstr [65]) (JSValue.vstr []) (JsNum.num 2)
      none true ≠ ReviewResponse.serverError ∧
    (msgReason = msgRating ∨ msgReason = msgName ∨ msgReason = msgReason) :=
  ⟨(review_validation_total (JSValue.vstr [65]) (JSValue.vstr [])
      (JsNum.num 2) none true).1,
   (review_validation_total (JSValue.vstr [65]) (JSValue.vstr [])
      (JsNum.num 2) none true).2 msgReason (by decide)⟩

/-- Helper for C1: while every attempt up to the retry budget fails with a
transient error, the loop keeps retrying and finally re-raises the error
of the last allowed attempt, having slept once per retry. -/
theorem retry_aux_transient (oracle : Nat → Option TgError)
    (retryAttempts : Nat) (delay : Int) (eLast : TgError)
    (htrans : ∀ i, i ≤ retryAttempts →
      ∃ e, oracle i = some e ∧ shouldRetryTelegram e = true)
    (hLast : oracle retryAttempts = some eLast) :
    ∀ n a, retryAttempts - a = n → a ≤ retryAttempts → ∀ waits,
      sendTelegramWithRetryAux oracle retryAttempts delay a waits =
        ⟨some eLast, retryAttempts + 1,
          waits ++ (if 0 < delay then List.replicate n delay else [])⟩ := by
  intro n
  induction n with
  | zero =>
    intro a ha hle waits
    have haa : a = retryAttempts := by omega
    subst haa
    rw [sendTelegramWithRetryAux, hLast]
    dsimp only
    rw [dif_neg (fun hc => absurd hc.1 (by omega))]
    simp
  | succ n ih =>
    intro a ha hle waits
    have halt : a < retryAttempts := by omega
    obtain ⟨e, he, hr⟩ := htrans a (le_of_lt halt)
    rw [sendTelegramWithRetryAux, he]
    dsimp only
    rw [dif_pos ⟨by omega, hr⟩]
    rw [ih (a + 1) (by omega) (by omega)]
    congr 1
    by_cases hd : 0 < delay
    · simp [hd, List.append_assoc, List.replicate_succ]
    · simp [hd]

/-- Claim C1: when every attempt fails transiently (client timeout or no
HTTP response) the loop makes exactly TELEGRAM_RETRY_ATTEMPTS additional
attempts, waiting the configured delay before each retry, and then raises
the failure; when the remote answered with an HTTP status the failure is
raised at once with zero additional attempts and no waits. -/
theorem telegram_retry_policy (oracle : Nat → Option TgError)
    (retryAttempts : Nat) (delay : Int) (eLast : TgError) :
    ((∀ i, i ≤ retryAttempts →
        ∃ e, oracle i = some e ∧ shouldRetryTelegram e = true) →
      oracle retryAttempts = some eLast →
      sendTelegramWithRetry oracle retryAttempts delay =
        ⟨some eLast, retryAttempts + 1,
          if 0 < delay then List.replicate retryAttempts delay else []⟩) ∧
    (∀ code st, oracle 0 = some (TgError.err code (some st)) →
      code ≠ some "ECONNABORTED" →
      sendTelegramWithRetry oracle retryAttempts delay =
        ⟨some (TgError.err code (some st)), 1, []⟩) := by
  constructor
  · intro htrans hLast
    have h := retry_aux_transient oracle retryAttempts delay eLast htrans
      hLast retryAttempts 0 (by omega) (by omega) []
    simpa using h
  · intro code st h0 hcode
    have hsr : shouldRetryTelegram (TgError.err code (some st)) = false := by
      simp [shouldRetryTelegram, hcode]
    have hneg : ¬(0 + 1 ≤ retryAttempts ∧
        shouldRetryTelegram (TgError.err code (some st)) = true) := by
      rw [hsr]; simp
    unfold sendTelegramWithRetry
    rw [sendTelegramWithRetryAux, h0]
    dsimp only
    rw [dif_neg hneg]

/-- Witness for C1: with the default single retry, a permanent timeout
produces two attempts with one 500ms wait, and an HTTP rejection produces
a single attempt with no wait. -/
theorem telegram_retry_policy_witness :
    sendTelegramWithRetry timeoutOracle 1 500 =
      ⟨some timeoutErr, 2, [500]⟩ ∧
    sendTelegramWithRetry httpRejectOracle 1 500 =
      ⟨some httpRejectErr, 1, []⟩ := by
  constructor
  · have h := (telegram_retry_policy timeoutOracle 1 500 timeoutErr).1
      (fun i _ => ⟨timeoutErr, rfl, by decide⟩) rfl
    simpa using h
  · have h := (telegram_retry_policy httpRejectOracle 1 500
      httpRejectErr).2 none 400 rfl (by decide)
    simpa [httpRejectErr] using h

/-- Helper: Map.get after Map.set finds the stored value. -/
theorem cacheGet_cacheSet (c : ClickCache) (k : String) (v : Int) :
    cacheGet (cacheSet c k v) k = some v := by
  induction c with
  | nil => simp [cacheSet, cacheGet]
  | cons e es ih =>
    by_cases h : e.1 = k
    · simp [cacheSet, cacheGet, h]
    · simp [cacheSet, cacheGet, h, ih]

/-- Helper: a filter sweep keeps a lookup result whose entry passes the
filter. -/
theorem cacheGet_filter (c : ClickCache) (k : String) (v : Int)
    (q : String × Int → Bool) (hv : cacheGet c k = some v)
    (hq : q (k, v) = true) : cacheGet (c.filter q) k = some v := by
  induction c with
  | nil => simp [cacheGet] at hv
  | cons e es ih =>
    simp only [cacheGet] at hv
    by_cases h : e.1 = k
    · rw [if_pos h] at hv
      injection hv with hv2
      have he : e = (k, v) := Prod.ext h hv2
      rw [List.filter_cons, he]
      simp [hq, cacheGet]
    · rw [if_neg h] at hv
      rw [List.filter_cons]
      by_cases hqe : q e
      · simp [hqe, cacheGet, h, ih hv]
      · simp [hqe, ih hv]

/-- Helper: a non-suppressed master click records its timestamp under its
key, surviving whatever eviction sweep runs afterwards (the window being
nonnegative). -/
theorem masterClick_records (w : Int) (hw : 0 ≤ w) (cache : ClickCache)
    (ip : String) (master : Option String) (t0 : Int)
    (hs : dedupSuppressed w
      (cacheGet cache (deriveMasterKey ip master)) t0 = false) :
    cacheGet (masterClick w cache ip master t0).cache
      (deriveMasterKey ip master) = some t0 := by
  simp only [masterClick, hs, Bool.false_eq_true, if_false]
  by_cases hlen :
      1000 < (cacheSet cache (deriveMasterKey ip master) t0).length
  · rw [if_pos hlen]
    apply cacheGet_filter
    · exact cacheGet_cacheSet _ _ _
    · simp only [sub_self, Bool.not_eq_true', decide_eq_false_iff_not,
        not_lt]
      exact hw
  · rw [if_neg hlen]
    exact cacheGet_cacheSet _ _ _

/-- Helper: the suppressed branch of the master-click handler returns the
cache unchanged with no delivery. -/
theorem masterClick_suppressed_eq (w : Int) (c : ClickCache) (ip : String)
    (master : Option String) (t : Int)
    (hs : dedupSuppressed w
      (cacheGet c (deriveMasterKey ip master)) t = true) :
    masterClick w c ip master t = ⟨true, true, c, 0⟩ := by
  simp [masterClick, hs]

/-- Helper: the processed branch of the master-click handler reports no
dedup and one delivery attempt. -/
theorem masterClick_processed_flags (w : Int) (c : ClickCache)
    (ip : String) (master : Option String) (t : Int)
    (hs : dedupSuppressed w
      (cacheGet c (deriveMasterKey ip master)) t = false) :
    (masterClick w c ip master t).deduped = false ∧
    (masterClick w c ip master t).deliveries = 1 := by
  simp [masterClick, hs]

/-- Helper: clicks whose key maps to a nonzero timestamp within the
window are all suppressed and leave the cache and delivery count alone. -/
theorem runMasterClicks_suppressed (w : Int) (ip : String)
    (master : Option String) (c : ClickCache) (t0 : Int) (h0 : t0 ≠ 0)
    (hget : cacheGet c (deriveMasterKey ip master) = some t0) :
    ∀ ts : List Int, (∀ t ∈ ts, t - t0 < w) →
      runMasterClicks w ip master ts c = (c, 0) := by
  intro ts
  induction ts with
  | nil => intro _; simp [runMasterClicks]
  | cons t ts ih =>
    intro hts
    have hsup : dedupSuppressed w
        (cacheGet c (deriveMasterKey ip master)) t = true := by
      rw [hget]
      simp only [dedupSuppressed, decide_eq_true_eq]
      exact ⟨h0, hts t (by simp)⟩
    have hmc : masterClick w c ip master t = ⟨true, true, c, 0⟩ := by
      simp [masterClick, hsup]
    simp only [runMasterClicks, hmc]
    simp [ih (fun x hx => hts x (List.mem_cons_of_mem _ hx))]

/-- Claim C2: after a recorded master click, a second identical click
strictly inside the dedup window answers success with the deduped flag,
leaves the cache alone and delivers nothing; once the window has elapsed
the click is recorded and delivered again. -/
theorem masterClick_dedup (cache : ClickCache) (ip : String)
    (master : Option String) (t0 t1 w : Int) (hw : 0 < w) (h0 : t0 ≠ 0)
    (hrec : (masterClick w cache ip master t0).deduped = false) :
    (t1 - t0 < w →
      masterClick w (masterClick w cache ip master t0).cache ip master t1 =
        ⟨true, true, (masterClick w cache ip master t0).cache, 0⟩) ∧
    (w ≤ t1 - t0 →
      (masterClick w (masterClick w cache ip master t0).cache ip master
          t1).deduped = false ∧
      (masterClick w (masterClick w cache ip master t0).cache ip master
          t1).deliveries = 1) := by
  have hs0 : dedupSuppressed w
      (cacheGet cache (deriveMasterKey ip master)) t0 = false := by
    cases hcase : dedupSuppressed w
        (cacheGet cache (deriveMasterKey ip master)) t0
    · rfl
    · simp [masterClick, hcase] at hrec
  have hget := masterClick_records w (le_of_lt hw) cache ip master t0 hs0
  constructor
  · intro ht
    have hs1 : dedupSuppressed w (cacheGet
        (masterClick w cache ip master t0).cache
        (deriveMasterKey ip master)) t1 = true := by
      rw [hget]
      simp only [dedupSuppressed, decide_eq_true_eq]
      exact ⟨h0, ht⟩
    exact masterClick_suppressed_eq w _ ip master t1 hs1
  · intro ht
    have hs1 : dedupSuppressed w (cacheGet
        (masterClick w cache ip master t0).cache
        (deriveMasterKey ip master)) t1 = false := by
      rw [hget]
      simp only [dedupSuppressed, decide_eq_false_iff_not]
      rintro ⟨-, h2⟩
      omega
    exact masterClick_processed_flags w _ ip master t1 hs1

/-- Witness for C2: with a 30s window, a repeat click of the same guest on
the same master after one second is suppressed without delivery. -/
theorem masterClick_dedup_witness :
    masterClick 30000
        (masterClick 30000 [] "1.2.3.4" (some "Anna") 1000).cache
        "1.2.3.4" (some "Anna") 2000 =
      ⟨true, true,
        (masterClick 30000 [] "1.2.3.4" (some "Anna") 1000).cache, 0⟩ :=
  (masterClick_dedup [] "1.2.3.4" (some "Anna") 1000 2000 30000
    (by decide) (by decide) (by decide)).1 (by decide)

/-- Claim C10: a suppressed master click leaves the cache exactly as it
was and delivers nothing, so the dedup window stays anchored at the first
recorded click: any number of suppressed repeats changes nothing, and a
click at or past the window end is processed again. -/
theorem masterClick_fixed_window (cache : ClickCache) (ip : String)
    (master : Option String) (t0 w : Int) (ts : List Int) (tLater : Int)
    (hw : 0 < w) (h0 : t0 ≠ 0)
    (hrec : (masterClick w cache ip master t0).deduped = false)
    (hts : ∀ t ∈ ts, t - t0 < w) :
    (∀ c t, (masterClick w c ip master t).deduped = true →
      (masterClick w c ip master t).cache = c ∧
      (masterClick w c ip master t).deliveries = 0) ∧
    runMasterClicks w ip master ts
        (masterClick w cache ip master t0).cache =
      ((masterClick w cache ip master t0).cache, 0) ∧
    (w ≤ tLater - t0 →
      (masterClick w (masterClick w cache ip master t0).cache ip master
        tLater).deduped = false) := by
  have hs0 : dedupSuppressed w
      (cacheGet cache (deriveMasterKey ip master)) t0 = false := by
    cases hcase : dedupSuppressed w
        (cacheGet cache (deriveMasterKey ip master)) t0
    · rfl
    · simp [masterClick, hcase] at hrec
  have hget := masterClick_records w (le_of_lt hw) cache ip master t0 hs0
  refine ⟨?_, ?_, ?_⟩
  · intro c t hd
    cases hcase : dedupSuppressed w
        (cacheGet c (deriveMasterKey ip master)) t
    · simp [masterClick, hcase] at hd
    · simp [masterClick, hcase]
  · exact runMasterClicks_suppressed w ip master _ t0 h0 hget ts hts
  · intro ht
    have hs1 : dedupSuppressed w (cacheGet
        (masterClick w cache ip master t0).cache
        (deriveMasterKey ip master)) tLater = false := by
      rw [hget]
      simp only [dedupSuppressed, decide_eq_false_iff_not]
      rintro ⟨-, h2⟩
      omega
    exact (masterClick_processed_flags w _ ip master tLater hs1).1

/-- Witness for C10: two suppressed repeats leave the cache untouched and
deliver nothing, and the click at the window end is processed. -/
theorem masterClick_fixed_window_witness :
    runMasterClicks 30000 "1.2.3.4" (some "Anna") [2000, 15000]
        (masterClick 30000 [] "1.2.3.4" (some "Anna") 1000).cache =
      ((masterClick 30000 [] "1.2.3.4" (some "Anna") 1000).cache, 0) ∧
    (masterClick 30000
        (masterClick 30000 [] "1.2.3.4" (some "Anna") 1000).cache
        "1.2.3.4" (some "Anna") 31000).deduped = false :=
  ⟨(masterClick_fixed_window [] "1.2.3.4" (some "Anna") 1000 30000
      [2000, 15000] 31000 (by decide) (by decide) (by decide)
      (by decide)).2.1,
   (masterClick_fixed_window [] "1.2.3.4" (some "Anna") 1000 30000
      [2000, 15000] 31000 (by decide) (by decide) (by decide)
      (by decide)).2.2 (by decide)⟩

/-- Helper for C3: every alert the fold emits lies at least the interval
after the incoming throttle state, and the emitted alerts are pairwise
spaced by at least the interval. -/
theorem runAlerts_sparse_aux (w : Int) (hw : 0 ≤ w) :
    ∀ (es : List (Int × Bool)) (st : Int),
      (runAlerts true w st es).2.Pairwise (fun a b => w ≤ b - a) ∧
      (∀ e ∈ (runAlerts true w st es).2, w ≤ e - st) := by
  intro es
  induction es with
  | nil => intro st; simp [runAlerts]
  | cons ef es ih =>
    intro st
    obtain ⟨t, f⟩ := ef
    by_cases hth : t - st < w
    · have ho : sendServerAlert true w st t f = ⟨st, false, false⟩ := by
        simp [sendServerAlert, hth]
      simp only [runAlerts, ho]
      simpa using ih st
    · have ho : sendServerAlert true w st t f = ⟨t, true, !f⟩ := by
        simp [sendServerAlert, hth]
      simp only [runAlerts, ho]
      obtain ⟨ihp, ihm⟩ := ih t
      constructor
      · simp only [if_true]
        refine List.Pairwise.cons ?_ ihp
        intro b hb
        exact ihm b hb
      · intro e he
        simp only [if_true, List.mem_cons] at he
        rcases he with he | he
        · subst he; omega
        · have := ihm e he; omega

/-- Helper for C3: when every failure is spaced at least the interval
after the previous one (and the first at least the interval after the
initial state), every failure emits one alert. -/
theorem runAlerts_all_emit (w : Int) :
    ∀ (es : List (Int × Bool)) (st : Int),
      List.Chain (fun a b => w ≤ b - a) st (es.map Prod.fst) →
      (runAlerts true w st es).2 = es.map Prod.fst := by
  intro es
  induction es with
  | nil => intro st _; simp [runAlerts]
  | cons ef es ih =>
    intro st hch
    obtain ⟨t, f⟩ := ef
    rw [List.map_cons, List.chain_cons] at hch
    obtain ⟨hst, hch⟩ := hch
    have ho : sendServerAlert true w st t f = ⟨t, true, !f⟩ := by
      simp [sendServerAlert, not_lt.mpr hst]
    simp only [runAlerts, ho]
    simp [ih t hch]

/-- Claim C3: with alerting enabled, the alerts emitted over any failure
sequence are pairwise at least the minimum interval apart; a failure
within the interval of the stored timestamp sends nothing, and failures
that are all spaced at least the interval apart each emit one alert. -/
theorem alert_throttle_spacing (w st0 : Int) (es : List (Int × Bool))
    (hw : 0 ≤ w) :
    (runAlerts true w st0 es).2.Pairwise (fun a b => w ≤ b - a) ∧
    (∀ st t f, t - st < w →
      sendServerAlert true w st t f = ⟨st, false, false⟩) ∧
    (List.Chain (fun a b => w ≤ b - a) st0 (es.map Prod.fst) →
      (runAlerts true w st0 es).2 = es.map Prod.fst) := by
  refine ⟨(runAlerts_sparse_aux w hw es st0).1, ?_,
    runAlerts_all_emit w es st0⟩
  intro st t f ht
  simp [sendServerAlert, ht]

/-- Witness for C3: a concrete failure burst emits pairwise spaced alerts
and a failure inside the window is dropped. -/
theorem alert_throttle_spacing_witness :
    (runAlerts true 300000 0 [(300000, true), (400000, false),
        (680000, false)]).2.Pairwise (fun a b => (300000 : Int) ≤ b - a) ∧
    sendServerAlert true 300000 300000 400000 false =
      ⟨300000, false, false⟩ :=
  ⟨(alert_throttle_spacing 300000 0 [(300000, true), (400000, false),
      (680000, false)] (by decide)).1,
   (alert_throttle_spacing 300000 0 [] (by decide)).2.1 300000 400000 false
     (by decide)⟩

end HataMasazhu
